import Mathlib

/-!
Shallow embedding of the go-ddd payment service (payment entity, audit
domain, in-memory repositories, application service) and proofs of the
spec claims.

Modelling conventions:
* `time.Time` values are abstract `Nat` clock readings; every Go call to
  `time.Now()` becomes an explicit `now : Nat` argument.
* `float64` amounts are modelled as `Rat`.
* The in-memory repositories (`map[string]*T` guarded by a lock, one
  logical operation at a time) are modelled as insertion-ordered
  association lists with Go's `m[k] = v` assignment semantics
  (`insertA`: replace if the key is present, append otherwise).
* Go map iteration order is unspecified; `Find` operations that range
  over the map take an explicit `order : List Nat` index list, and a
  behaviour of the Go program corresponds to any `order` that is a
  permutation of the map's index range (`ValidIter`).
* The audit `Repository.Save` used by the services is a parameter
  (`AuditSave`), mirroring the Go interface type; `memAuditSave` is the
  in-memory implementation, which never fails.
* UUID generation (`uuid.New().String()`) is modelled by passing the
  freshly generated string as an argument.
-/

/-- `payment.PaymentID`: opaque string-backed identifier. -/
structure PaymentID where
  value : String
deriving DecidableEq, Repr

/-- `payment.PaymentIDFromString`: wraps a string with no validation. -/
def paymentIDFromString (id : String) : PaymentID :=
  { value := id }

/-- `payment.PaymentID.String`. -/
def PaymentID.toStr (id : PaymentID) : String :=
  id.value

/-- `payment.Amount`: value (float64, modelled as `Rat`) plus currency. -/
structure Amount where
  value : Rat
  currency : String
deriving DecidableEq, Repr

/-- `payment.NewAmount`: validates non-negative value and non-empty currency. -/
def newAmount (value : Rat) (currency : String) : Except String Amount :=
  if value < 0 then .error "amount cannot be negative"
  else if currency = "" then .error "currency cannot be empty"
  else .ok { value := value, currency := currency }

/-- `payment.PaymentStatus` (the five named constants). -/
inductive PaymentStatus where
  | pending
  | processing
  | completed
  | failed
  | cancelled
deriving DecidableEq, Repr

/-- `payment.PaymentStatus.String`. -/
def PaymentStatus.toStr : PaymentStatus → String
  | .pending => "pending"
  | .processing => "processing"
  | .completed => "completed"
  | .failed => "failed"
  | .cancelled => "cancelled"

/-- `payment.Payment` entity. -/
structure Payment where
  id : PaymentID
  amount : Amount
  status : PaymentStatus
  description : String
  createdAt : Nat
  updatedAt : Nat
deriving DecidableEq, Repr

/-- `payment.NewPayment`: pending status, `createdAt = updatedAt = now`;
the generated `PaymentID` is passed in explicitly. -/
def newPayment (id : PaymentID) (amount : Amount) (description : String)
    (now : Nat) : Payment :=
  { id := id, amount := amount, status := .pending, description := description,
    createdAt := now, updatedAt := now }

/-- `Payment.Process`: Go mutates the receiver and returns an error;
modelled as (updated entity, optional error message). -/
def Payment.process (p : Payment) (now : Nat) : Payment × Option String :=
  if p.status ≠ .pending then
    (p, some "payment can only be processed from pending status")
  else
    ({ p with status := .processing, updatedAt := now }, none)

/-- `Payment.Complete`. -/
def Payment.complete (p : Payment) (now : Nat) : Payment × Option String :=
  if p.status ≠ .processing then
    (p, some "payment can only be completed from processing status")
  else
    ({ p with status := .completed, updatedAt := now }, none)

/-- `Payment.Fail`. -/
def Payment.fail (p : Payment) (now : Nat) : Payment × Option String :=
  if p.status = .completed then
    (p, some "completed payment cannot be failed")
  else
    ({ p with status := .failed, updatedAt := now }, none)

/-- `Payment.Cancel`. -/
def Payment.cancel (p : Payment) (now : Nat) : Payment × Option String :=
  if p.status = .completed ∨ p.status = .processing then
    (p, some "payment cannot be cancelled in current status")
  else
    ({ p with status := .cancelled, updatedAt := now }, none)

/-- `audit.ActionType` constants. -/
inductive ActionType where
  | created
  | updated
  | deleted
  | processed
  | completed
  | failed
  | cancelled
deriving DecidableEq, Repr

/-- `audit.EntityTypePayment` (EntityType is a string type in Go). -/
def entityTypePayment : String := "payment"

/-- Structured values stored in an audit entry's old/new data maps
(`map[string]interface{}` after JSON round-tripping): the application
only ever stores strings, float64 numbers and timestamps. -/
inductive AValue where
  | s (v : String)
  | n (v : Rat)
  | t (v : Nat)
deriving DecidableEq, Repr

/-- `audit.AuditEntry`; the `AuditID` is its backing string. -/
structure AuditEntry where
  id : String
  entityType : String
  entityID : String
  action : ActionType
  oldData : List (String × AValue)
  newData : List (String × AValue)
  userID : String
  timestamp : Nat
  metadata : List (String × String)
deriving DecidableEq, Repr

/-- `audit.NewAuditEntry`: empty data/metadata maps, timestamp fixed at
construction; generated `AuditID` and `time.Now()` passed explicitly. -/
def newAuditEntry (id etype eid : String) (action : ActionType)
    (userID : String) (now : Nat) : AuditEntry :=
  { id := id, entityType := etype, entityID := eid, action := action,
    oldData := [], newData := [], userID := userID, timestamp := now,
    metadata := [] }

/-- Go map assignment `m[k] = v` on an insertion-ordered association
list: replace the binding if the key is present, append otherwise. -/
def insertA {α : Type} : List (String × α) → String → α → List (String × α)
  | [], k, v => [(k, v)]
  | (k', v') :: t, k, v =>
      if k' = k then (k, v) :: t else (k', v') :: insertA t k v

/-- Go map lookup `m[k]`. -/
def lookupA {α : Type} : List (String × α) → String → Option α
  | [], _ => none
  | (k', v) :: t, k => if k' = k then some v else lookupA t k

/-- The key set of a Go map modelled as an association list. -/
def keysA {α : Type} (l : List (String × α)) : List String :=
  l.map Prod.fst

/-- The stored values of an association-list map, in insertion order. -/
def valsA {α : Type} (l : List (String × α)) : List α :=
  l.map Prod.snd

/-- The payment in-memory store's backing map
(`PaymentMemoryRepository.payments`). -/
abbrev PaymentStore := List (String × Payment)

/-- The audit in-memory store's backing map
(`AuditMemoryRepository.entries`, keyed by `entry.ID().String()`). -/
abbrev AuditStore := List (String × AuditEntry)

/-- The `audit.Repository.Save` capability the audit domain service is
constructed with (a Go interface method); an error leaves the store as
the caller had it. -/
abbrev AuditSave := AuditStore → AuditEntry → Except String AuditStore

/-- `AuditMemoryRepository.Save`: `r.entries[entry.ID().String()] = entry`,
never fails. -/
def memAuditSave : AuditSave :=
  fun st e => .ok (insertA st e.id e)

/-- `PaymentMemoryRepository.FindByID`. -/
def repoFindByID (ps : PaymentStore) (id : PaymentID) : Except String Payment :=
  match lookupA ps id.toStr with
  | some p => .ok p
  | none => .error "payment not found"

/-- `PaymentMemoryRepository.Save`: map assignment, never fails. -/
def repoSave (ps : PaymentStore) (p : Payment) : PaymentStore :=
  insertA ps p.id.toStr p

/-- `PaymentMemoryRepository.Update`: fails with "payment not found" when
the key is absent, otherwise assigns. -/
def repoUpdate (ps : PaymentStore) (p : Payment) : Except String PaymentStore :=
  match lookupA ps p.id.toStr with
  | some _ => .ok (insertA ps p.id.toStr p)
  | none => .error "payment not found"

/-- `payment.Service.ProcessPayment`: fetch, guarded transition, update. -/
def svcProcessPayment (ps : PaymentStore) (id : PaymentID) (now : Nat) :
    Except String PaymentStore :=
  match repoFindByID ps id with
  | .error e => .error e
  | .ok p =>
      match p.process now with
      | (_, some e) => .error e
      | (p', none) => repoUpdate ps p'

/-- `payment.Service.CompletePayment`. -/
def svcCompletePayment (ps : PaymentStore) (id : PaymentID) (now : Nat) :
    Except String PaymentStore :=
  match repoFindByID ps id with
  | .error e => .error e
  | .ok p =>
      match p.complete now with
      | (_, some e) => .error e
      | (p', none) => repoUpdate ps p'

/-- `audit.Service.RecordAction`: build the entry, set non-nil old/new
data (record-shaped payloads, so serialization succeeds), save it. -/
def recordAction (asave : AuditSave) (st : AuditStore) (etype eid : String)
    (action : ActionType) (userID : String)
    (oldD newD : Option (List (String × AValue))) (aid : String)
    (now : Nat) : Except String AuditStore :=
  let e0 := newAuditEntry aid etype eid action userID now
  let e1 := match oldD with
    | none => e0
    | some d => { e0 with oldData := d }
  let e2 := match newD with
    | none => e1
    | some d => { e1 with newData := d }
  asave st e2

/-- `audit.Service.RecordPaymentCreated`: action `created`, nil oldData. -/
def recordPaymentCreated (asave : AuditSave) (st : AuditStore)
    (paymentID userID : String) (paymentData : List (String × AValue))
    (aid : String) (now : Nat) : Except String AuditStore :=
  recordAction asave st entityTypePayment paymentID .created userID
    none (some paymentData) aid now

/-- The status-string to `ActionType` mapping in
`audit.Service.RecordPaymentStatusChange`'s switch. -/
def statusToAction (s : String) : Option ActionType :=
  if s = "processing" then some .processed
  else if s = "completed" then some .completed
  else if s = "failed" then some .failed
  else if s = "cancelled" then some .cancelled
  else none

/-- `audit.Service.RecordPaymentStatusChange`: maps the new status to an
action (a hard error for an unknown status before anything is saved) and
records one-key `{status: ...}` snapshots. -/
def recordPaymentStatusChange (asave : AuditSave) (st : AuditStore)
    (paymentID userID oldStatus newStatus : String) (aid : String)
    (now : Nat) : Except String AuditStore :=
  match statusToAction newStatus with
  | none => .error "unknown payment status"
  | some action =>
      recordAction asave st entityTypePayment paymentID action userID
        (some [("status", AValue.s oldStatus)])
        (some [("status", AValue.s newStatus)]) aid now

/-- The two in-memory stores through which one run of the program flows
(the composition wired up in `main`). -/
structure AppState where
  payments : PaymentStore
  audits : AuditStore
deriving DecidableEq, Repr

/-- `PaymentApplicationService.CreatePayment`: validate the amount,
create and persist the payment, then record a `created` audit entry with
the full field snapshot. Returns the (possibly mutated) stores together
with the Go return value; Go's store mutations survive a late error. -/
def appCreatePayment (asave : AuditSave) (st : AppState) (amount : Rat)
    (currency description userID : String) (pid : PaymentID) (nowP : Nat)
    (aid : String) (nowA : Nat) : AppState × Except String Payment :=
  match newAmount amount currency with
  | .error e => (st, .error ("invalid amount: " ++ e))
  | .ok a =>
      let p := newPayment pid a description nowP
      let ps' := repoSave st.payments p
      let paymentData : List (String × AValue) :=
        [("id", .s p.id.toStr), ("amount", .n p.amount.value),
         ("currency", .s p.amount.currency),
         ("description", .s p.description),
         ("status", .s p.status.toStr), ("created_at", .t p.createdAt)]
      match recordPaymentCreated asave st.audits p.id.toStr userID
          paymentData aid nowA with
      | .error e =>
          ({ payments := ps', audits := st.audits },
           .error ("failed to record audit: " ++ e))
      | .ok as' => ({ payments := ps', audits := as' }, .ok p)

/-- `PaymentApplicationService.ProcessPayment`: read the old status,
run the domain transition, then record the status-change audit entry;
an audit failure is returned but the payment mutation stands. -/
def appProcessPayment (asave : AuditSave) (st : AppState)
    (paymentID userID : String) (nowT : Nat) (aid : String) (nowA : Nat) :
    AppState × Except String Unit :=
  let id := paymentIDFromString paymentID
  match repoFindByID st.payments id with
  | .error e => (st, .error ("failed to get payment: " ++ e))
  | .ok p =>
      let oldStatus := p.status.toStr
      match svcProcessPayment st.payments id nowT with
      | .error e => (st, .error ("failed to process payment: " ++ e))
      | .ok ps' =>
          match recordPaymentStatusChange asave st.audits paymentID userID
              oldStatus "processing" aid nowA with
          | .error e =>
              ({ payments := ps', audits := st.audits },
               .error ("failed to record audit: " ++ e))
          | .ok as' => ({ payments := ps', audits := as' }, .ok ())

/-- `PaymentApplicationService.CompletePayment`. -/
def appCompletePayment (asave : AuditSave) (st : AppState)
    (paymentID userID : String) (nowT : Nat) (aid : String) (nowA : Nat) :
    AppState × Except String Unit :=
  let id := paymentIDFromString paymentID
  match repoFindByID st.payments id with
  | .error e => (st, .error ("failed to get payment: " ++ e))
  | .ok p =>
      let oldStatus := p.status.toStr
      match svcCompletePayment st.payments id nowT with
      | .error e => (st, .error ("failed to complete payment: " ++ e))
      | .ok ps' =>
          match recordPaymentStatusChange asave st.audits paymentID userID
              oldStatus "completed" aid nowA with
          | .error e =>
              ({ payments := ps', audits := st.audits },
               .error ("failed to record audit: " ++ e))
          | .ok as' => ({ payments := ps', audits := as' }, .ok ())

/-- One pass of Go's `for _, entry := range r.entries` over the audit
map: `order` lists the positions visited, in visit order. -/
def iterVals (st : AuditStore) (order : List Nat) : List AuditEntry :=
  order.filterMap (fun i => (st.get? i).map Prod.snd)

/-- An `order` is a behaviour Go's unspecified map iteration can
exhibit: it visits every stored entry exactly once. -/
def ValidIter (st : AuditStore) (order : List Nat) : Prop :=
  order.Perm (List.range st.length)

/-- `AuditMemoryRepository.FindByEntityID` under iteration order
`order`: keep the visited entries matching the entity type and id. -/
def findByEntityIDWith (st : AuditStore) (order : List Nat)
    (etype eid : String) : List AuditEntry :=
  (iterVals st order).filter
    (fun e => decide (e.entityType = etype) && decide (e.entityID = eid))

/-- `audit.AuditFilter`: optional predicates. -/
structure AuditFilter where
  entityType : Option String := none
  entityID : Option String := none
  action : Option ActionType := none
  userID : Option String := none
  fromDate : Option Nat := none
  toDate : Option Nat := none
deriving DecidableEq, Repr

/-- `AuditMemoryRepository.matchesFilter`: every present predicate must
hold (`Before`/`After` are strict, so the bounds are inclusive). -/
def matchesFilter (e : AuditEntry) (f : AuditFilter) : Bool :=
  (match f.entityType with | none => true | some t => decide (e.entityType = t)) &&
  (match f.entityID with | none => true | some i => decide (e.entityID = i)) &&
  (match f.action with | none => true | some a => decide (e.action = a)) &&
  (match f.userID with | none => true | some u => decide (e.userID = u)) &&
  (match f.fromDate with | none => true | some d => decide (d ≤ e.timestamp)) &&
  (match f.toDate with | none => true | some d => decide (e.timestamp ≤ d))

/-- `AuditMemoryRepository.FindByFilter` under iteration order `order`. -/
def findByFilterWith (st : AuditStore) (order : List Nat)
    (f : AuditFilter) : List AuditEntry :=
  (iterVals st order).filter (fun e => matchesFilter e f)

/-- `PaymentApplicationService.GetPaymentAuditHistory`: delegates to
`GetAuditHistory`/`FindByEntityID` with entity type `payment`; the Go
chain returns a nil error unconditionally. -/
def appGetPaymentAuditHistory (st : AppState) (paymentID : String)
    (order : List Nat) : Except String (List AuditEntry) :=
  .ok (findByEntityIDWith st.audits order entityTypePayment paymentID)

/-- A concrete payment used by witness instantiations. -/
def samplePayment (st : PaymentStatus) : Payment :=
  { id := { value := "p1" }, amount := { value := 5, currency := "USD" },
    status := st, description := "d", createdAt := 0, updatedAt := 0 }

/-- The audit entry `RecordPaymentStatusChange` builds: one-key
`{status: ...}` snapshots of the old and new status strings. -/
def statusChangeEntry (aid pid userID oldS newS : String) (act : ActionType)
    (now : Nat) : AuditEntry :=
  { id := aid, entityType := entityTypePayment, entityID := pid, action := act,
    oldData := [("status", .s oldS)], newData := [("status", .s newS)],
    userID := userID, timestamp := now, metadata := [] }

/-- The `created` audit entry `CreatePayment` records: empty oldData and
a full field snapshot in newData. -/
def createdEntry (aid : String) (pid : PaymentID) (v : Rat)
    (c desc userID : String) (createdAt ts : Nat) : AuditEntry :=
  { id := aid, entityType := entityTypePayment, entityID := pid.toStr,
    action := .created, oldData := [],
    newData := [("id", .s pid.toStr), ("amount", .n v), ("currency", .s c),
      ("description", .s desc), ("status", .s "pending"),
      ("created_at", .t createdAt)],
    userID := userID, timestamp := ts, metadata := [] }

/-- A pending payment keyed in the payment store, empty audit store. -/
def c1StA : AppState :=
  { payments := [("p1", samplePayment .pending)], audits := [] }

/-- The state after processing the payment of `c1StA`. -/
def c1StA' : AppState :=
  { payments := [("p1", { samplePayment .pending with
      status := .processing, updatedAt := 1 })],
    audits := [("a1", statusChangeEntry "a1" "p1" "u"
      "pending" "processing" .processed 2)] }

/-- A processing payment keyed in the payment store, empty audit store. -/
def c1StC : AppState :=
  { payments := [("p1", samplePayment .processing)], audits := [] }

/-- The state after completing the payment of `c1StC`. -/
def c1StC' : AppState :=
  { payments := [("p1", { samplePayment .processing with
      status := .completed, updatedAt := 1 })],
    audits := [("a1", statusChangeEntry "a1" "p1" "u"
      "processing" "completed" .completed 2)] }

/-- The state after `CreatePayment`, `ProcessPayment`, `CompletePayment`
run in sequence through the application service with the in-memory
repositories (the demo flow in `main`). -/
def scenarioFinal (st : AppState) (v : Rat) (c desc userID : String)
    (pid : PaymentID) (aid1 aid2 aid3 : String)
    (n1 n2 n3 n4 n5 n6 : Nat) : AppState :=
  let st1 := (appCreatePayment memAuditSave st v c desc userID pid n1 aid1 n2).1
  let st2 := (appProcessPayment memAuditSave st1 pid.toStr userID n3 aid2 n4).1
  (appCompletePayment memAuditSave st2 pid.toStr userID n5 aid3 n6).1

/-- The concrete create/process/complete run used to exhibit iteration
order: empty initial stores, payment id "p1", audit ids "a1" "a2" "a3". -/
def c7Sample : AppState :=
  scenarioFinal { payments := [], audits := [] } 5 "USD" "d" "u"
    { value := "p1" } "a1" "a2" "a3" 0 1 2 3 4 5

theorem insertA_fresh {α : Type} (l : List (String × α)) (k : String) (v : α)
    (h : k ∉ keysA l) : insertA l k v = l ++ [(k, v)] := by
  induction l with
  | nil => rfl
  | cons hd t ih =>
      simp [keysA] at h
      simp [insertA, Ne.symm h.1, ih (by simp [keysA, h.2])]

theorem lookupA_insertA_self {α : Type} (l : List (String × α)) (k : String)
    (v : α) : lookupA (insertA l k v) k = some v := by
  induction l with
  | nil => simp [insertA, lookupA]
  | cons hd t ih =>
      by_cases h : hd.1 = k
      · simp [insertA, h, lookupA]
      · simp [insertA, h, lookupA, ih]

theorem lookupA_append_left {α : Type} (l l' : List (String × α)) (k : String)
    (h : k ∉ keysA l) : lookupA (l ++ l') k = lookupA l' k := by
  induction l with
  | nil => rfl
  | cons hd t ih =>
      simp [keysA] at h
      simp [lookupA, Ne.symm h.1, ih (by simp [keysA, h.2])]

theorem keysA_insertA {α : Type} (l : List (String × α)) (k : String) (v : α)
    (h : k ∉ keysA l) : keysA (insertA l k v) = keysA l ++ [k] := by
  rw [insertA_fresh l k v h]
  simp [keysA]

theorem valsA_append {α : Type} (l l' : List (String × α)) :
    valsA (l ++ l') = valsA l ++ valsA l' := by
  simp [valsA]

/-- C2: Process succeeds iff the status is pending and sets it to
processing; Complete succeeds iff processing and sets completed; Fail
succeeds iff the status is not completed (so also from failed and
cancelled) and sets failed; Cancel succeeds iff the status is neither
processing nor completed (so also from cancelled) and sets cancelled.
Successful transitions also refresh `updatedAt`. -/
theorem payment_transition_table (p : Payment) (now : Nat) :
    ((p.process now).2 = none ↔ p.status = .pending) ∧
    (p.status = .pending →
      p.process now = ({ p with status := .processing, updatedAt := now }, none)) ∧
    ((p.complete now).2 = none ↔ p.status = .processing) ∧
    (p.status = .processing →
      p.complete now = ({ p with status := .completed, updatedAt := now }, none)) ∧
    ((p.fail now).2 = none ↔ p.status ≠ .completed) ∧
    (p.status ≠ .completed →
      p.fail now = ({ p with status := .failed, updatedAt := now }, none)) ∧
    ((p.cancel now).2 = none ↔ (p.status ≠ .processing ∧ p.status ≠ .completed)) ∧
    (p.status ≠ .processing → p.status ≠ .completed →
      p.cancel now = ({ p with status := .cancelled, updatedAt := now }, none)) := by
  obtain ⟨id, amount, status, description, createdAt, updatedAt⟩ := p
  cases status <;>
    simp [Payment.process, Payment.complete, Payment.fail, Payment.cancel]

/-- C2 witness: evaluated at concrete payments. -/
theorem payment_transition_table_witness :
    (samplePayment .pending).process 1 =
      ({ samplePayment .pending with status := .processing, updatedAt := 1 }, none) ∧
    ((samplePayment .failed).fail 1).2 = none ∧
    ((samplePayment .cancelled).cancel 1).2 = none := by
  refine ⟨?_, ?_, ?_⟩
  · exact (payment_transition_table (samplePayment .pending) 1).2.1 rfl
  · exact ((payment_transition_table (samplePayment .failed) 1).2.2.2.2.1).mpr (by decide)
  · exact ((payment_transition_table (samplePayment .cancelled) 1).2.2.2.2.2.2.1).mpr
      (by decide)

/-- C3: a transition call made from a status outside its guard returns
the exact guard message from the source and returns the entity itself
unchanged (same status and same `updatedAt`): the result pair's first
component is `p` itself. -/
theorem payment_rejected_unchanged (p : Payment) (now : Nat) :
    (p.status ≠ .pending →
      p.process now = (p, some "payment can only be processed from pending status")) ∧
    (p.status ≠ .processing →
      p.complete now = (p, some "payment can only be completed from processing status")) ∧
    (p.status = .completed →
      p.fail now = (p, some "completed payment cannot be failed")) ∧
    (p.status = .processing ∨ p.status = .completed →
      p.cancel now = (p, some "payment cannot be cancelled in current status")) := by
  obtain ⟨id, amount, status, description, createdAt, updatedAt⟩ := p
  cases status <;>
    simp [Payment.process, Payment.complete, Payment.fail, Payment.cancel]

/-- C3 witness: rejected calls at a completed payment leave it intact. -/
theorem payment_rejected_unchanged_witness :
    (samplePayment .completed).fail 7 =
      (samplePayment .completed, some "completed payment cannot be failed") ∧
    (samplePayment .completed).process 7 =
      (samplePayment .completed, some "payment can only be processed from pending status") ∧
    (samplePayment .completed).cancel 7 =
      (samplePayment .completed, some "payment cannot be cancelled in current status") := by
  refine ⟨?_, ?_, ?_⟩
  · exact (payment_rejected_unchanged (samplePayment .completed) 7).2.2.1 rfl
  · exact (payment_rejected_unchanged (samplePayment .completed) 7).1 (by decide)
  · exact (payment_rejected_unchanged (samplePayment .completed) 7).2.2.2 (Or.inr rfl)

/-- C9: Amount construction succeeds exactly for a non-negative value
and a non-empty currency, round-trips both fields unchanged, and fails
with the two specific messages otherwise. -/
theorem amount_validation (v : Rat) (c : String) :
    ((∃ a, newAmount v c = .ok a) ↔ 0 ≤ v ∧ c ≠ "") ∧
    (0 ≤ v → c ≠ "" →
      newAmount v c = .ok { value := v, currency := c } ∧
      (Amount.mk v c).value = v ∧ (Amount.mk v c).currency = c) ∧
    (v < 0 → newAmount v c = .error "amount cannot be negative") ∧
    (0 ≤ v → c = "" → newAmount v c = .error "currency cannot be empty") := by
  by_cases hv : v < 0
  · simp [newAmount, hv, not_le.mpr hv]
  · by_cases hc : c = ""
    · simp [newAmount, hv, hc]
    · simp [newAmount, hv, hc, not_lt.mp hv]

/-- C9 witness: concrete valid and invalid constructions. -/
theorem amount_validation_witness :
    newAmount (201 / 2 : Rat) "USD" = .ok { value := (201 / 2 : Rat), currency := "USD" } ∧
    newAmount (-21 / 2 : Rat) "USD" = .error "amount cannot be negative" ∧
    newAmount (201 / 2 : Rat) "" = .error "currency cannot be empty" := by
  refine ⟨?_, ?_, ?_⟩
  · exact ((amount_validation (201 / 2 : Rat) "USD").2.1 (by norm_num) (by decide)).1
  · exact (amount_validation (-21 / 2 : Rat) "USD").2.2.1 (by norm_num)
  · exact (amount_validation (201 / 2 : Rat) "").2.2.2 (by norm_num) rfl

/-- C10: PaymentIDFromString accepts any string without validation and
String() returns it unchanged; the application service addresses
payments through exactly this conversion
(`appProcessPayment` keys the store lookup on the round-tripped id). -/
theorem paymentID_roundtrip (s : String) :
    (paymentIDFromString s).toStr = s ∧
    ((paymentIDFromString "").toStr = "" ∧
      (paymentIDFromString "test-payment-id").toStr = "test-payment-id") := by
  exact ⟨rfl, rfl, rfl⟩

theorem recordPaymentStatusChange_eq (asave : AuditSave) (st : AuditStore)
    (pid userID oldS newS aid : String) (now : Nat) :
    recordPaymentStatusChange asave st pid userID oldS newS aid now =
      match statusToAction newS with
      | none => .error "unknown payment status"
      | some act => asave st (statusChangeEntry aid pid userID oldS newS act now) := by
  cases h : statusToAction newS <;>
    simp [recordPaymentStatusChange, h, recordAction, statusChangeEntry, newAuditEntry]

/-- C5: RecordPaymentStatusChange maps the new-status string
processing/completed/failed/cancelled to the actions
processed/completed/failed/cancelled and (with the in-memory store)
persists exactly that entry; for every other string it fails with
"unknown payment status" without invoking any save, whatever the
repository (so the audit store is untouched on that path). -/
theorem recordPaymentStatusChange_mapping (st : AuditStore)
    (pid userID oldS aid : String) (now : Nat) :
    (recordPaymentStatusChange memAuditSave st pid userID oldS "processing" aid now =
      .ok (insertA st aid (statusChangeEntry aid pid userID oldS "processing" .processed now))) ∧
    (recordPaymentStatusChange memAuditSave st pid userID oldS "completed" aid now =
      .ok (insertA st aid (statusChangeEntry aid pid userID oldS "completed" .completed now))) ∧
    (recordPaymentStatusChange memAuditSave st pid userID oldS "failed" aid now =
      .ok (insertA st aid (statusChangeEntry aid pid userID oldS "failed" .failed now))) ∧
    (recordPaymentStatusChange memAuditSave st pid userID oldS "cancelled" aid now =
      .ok (insertA st aid (statusChangeEntry aid pid userID oldS "cancelled" .cancelled now))) ∧
    (∀ newS, newS ≠ "processing" → newS ≠ "completed" → newS ≠ "failed" →
      newS ≠ "cancelled" → ∀ asave : AuditSave,
      recordPaymentStatusChange asave st pid userID oldS newS aid now =
        .error "unknown payment status") := by
  refine ⟨?_, ?_, ?_, ?_, ?_⟩
  · rw [recordPaymentStatusChange_eq]; rfl
  · rw [recordPaymentStatusChange_eq]; rfl
  · rw [recordPaymentStatusChange_eq]; rfl
  · rw [recordPaymentStatusChange_eq]; rfl
  · intro newS h1 h2 h3 h4 asave
    rw [recordPaymentStatusChange_eq]
    simp [statusToAction, h1, h2, h3, h4]

/-- C5 witness: the unknown literal from the spec's test, plus one
mapped case, at a concrete store. -/
theorem recordPaymentStatusChange_mapping_witness :
    (∀ asave : AuditSave,
      recordPaymentStatusChange asave [] "p1" "u" "pending" "unknown-value" "a1" 3 =
        .error "unknown payment status") ∧
    recordPaymentStatusChange memAuditSave [] "p1" "u" "pending" "processing" "a1" 3 =
      .ok [("a1", statusChangeEntry "a1" "p1" "u" "pending" "processing" .processed 3)] := by
  constructor
  · exact fun asave =>
      (recordPaymentStatusChange_mapping [] "p1" "u" "pending" "a1" 3).2.2.2.2
        "unknown-value" (by decide) (by decide) (by decide) (by decide) asave
  · exact (recordPaymentStatusChange_mapping [] "p1" "u" "pending" "a1" 3).1

theorem filterMap_get_range {α : Type} (l : List α) :
    (List.range l.length).filterMap (fun i => l.get? i) = l := by
  induction l with
  | nil => rfl
  | cons a t ih =>
      rw [List.length_cons, List.range_succ_eq_map]
      simp only [List.filterMap_cons, List.get?_cons_zero, List.filterMap_map]
      rw [show ((fun i => (a :: t).get? i) ∘ Nat.succ) = fun i => t.get? i from rfl]
      rw [ih]

theorem iterVals_eq (st : AuditStore) (order : List Nat) :
    iterVals st order = order.filterMap (fun i => (valsA st).get? i) := by
  unfold iterVals valsA
  congr 1
  funext i
  exact (List.get?_map Prod.snd st i).symm

theorem iterVals_perm (st : AuditStore) (order : List Nat)
    (h : ValidIter st order) : (iterVals st order).Perm (valsA st) := by
  rw [iterVals_eq]
  have h2 := (h.filterMap (fun i => (valsA st).get? i))
  rwa [show st.length = (valsA st).length by simp [valsA],
    filterMap_get_range] at h2

theorem iterVals_mem (st : AuditStore) (order : List Nat) (a : AuditEntry)
    (h : a ∈ iterVals st order) : a ∈ valsA st := by
  rw [iterVals_eq] at h
  obtain ⟨i, _, hi⟩ := List.mem_filterMap.mp h
  exact List.get?_mem hi

/-- C8: under any map-iteration order, FindByFilter returns an entry iff
it is stored and satisfies matchesFilter; matchesFilter is exactly the
conjunction of the present predicates (equality for entity type / id /
action / user id, inclusive timestamp bounds), and the empty filter
matches every entry. -/
theorem findByFilter_semantics (st : AuditStore) (order : List Nat)
    (f : AuditFilter) (e : AuditEntry) (h : ValidIter st order) :
    (e ∈ findByFilterWith st order f ↔ e ∈ valsA st ∧ matchesFilter e f = true) ∧
    (matchesFilter e f = true ↔
      (∀ t, f.entityType = some t → e.entityType = t) ∧
      (∀ i, f.entityID = some i → e.entityID = i) ∧
      (∀ a, f.action = some a → e.action = a) ∧
      (∀ u, f.userID = some u → e.userID = u) ∧
      (∀ d, f.fromDate = some d → d ≤ e.timestamp) ∧
      (∀ d, f.toDate = some d → e.timestamp ≤ d)) ∧
    matchesFilter e {} = true := by
  refine ⟨?_, ?_, ?_⟩
  · unfold findByFilterWith
    rw [List.mem_filter]
    exact and_congr_left' ((iterVals_perm st order h).mem_iff)
  · obtain ⟨et, ei, ac, u, fd, td⟩ := f
    cases et <;> cases ei <;> cases ac <;> cases u <;> cases fd <;> cases td <;>
      simp [matchesFilter, and_assoc]
  · simp [matchesFilter]

/-- C8 witness: a two-entry store, a user-id filter, identity order. -/
theorem findByFilter_semantics_witness :
    (statusChangeEntry "a1" "p1" "u1" "pending" "processing" .processed 3 ∈
      findByFilterWith
        [("a1", statusChangeEntry "a1" "p1" "u1" "pending" "processing" .processed 3),
         ("a2", statusChangeEntry "a2" "p2" "u2" "pending" "processing" .processed 4)]
        [0, 1] { userID := some "u1" } ↔
      statusChangeEntry "a1" "p1" "u1" "pending" "processing" .processed 3 ∈
        valsA
          [("a1", statusChangeEntry "a1" "p1" "u1" "pending" "processing" .processed 3),
           ("a2", statusChangeEntry "a2" "p2" "u2" "pending" "processing" .processed 4)] ∧
      matchesFilter (statusChangeEntry "a1" "p1" "u1" "pending" "processing" .processed 3)
        { userID := some "u1" } = true) ∧
    matchesFilter (statusChangeEntry "a1" "p1" "u1" "pending" "processing" .processed 3)
      {} = true := by
  constructor
  · exact (findByFilter_semantics
      [("a1", statusChangeEntry "a1" "p1" "u1" "pending" "processing" .processed 3),
       ("a2", statusChangeEntry "a2" "p2" "u2" "pending" "processing" .processed 4)]
      [0, 1] { userID := some "u1" }
      (statusChangeEntry "a1" "p1" "u1" "pending" "processing" .processed 3)
      (by unfold ValidIter; decide)).1
  · exact (findByFilter_semantics
      [("a1", statusChangeEntry "a1" "p1" "u1" "pending" "processing" .processed 3),
       ("a2", statusChangeEntry "a2" "p2" "u2" "pending" "processing" .processed 4)]
      [0, 1] { userID := some "u1" }
      (statusChangeEntry "a1" "p1" "u1" "pending" "processing" .processed 3)
      (by unfold ValidIter; decide)).2.2

/-- C6: for a payment id with no recorded history — whatever the payment
store contains, so in particular for ids absent from it — and any
map-iteration order, GetPaymentAuditHistory returns the empty collection
with a nil error. -/
theorem auditHistory_empty_for_unknown (st : AppState) (pid : String)
    (order : List Nat)
    (h : ∀ e ∈ valsA st.audits,
      ¬(e.entityType = entityTypePayment ∧ e.entityID = pid)) :
    appGetPaymentAuditHistory st pid order = .ok [] := by
  unfold appGetPaymentAuditHistory findByEntityIDWith
  congr 1
  rw [List.filter_eq_nil]
  intro e he
  have h2 := h e (iterVals_mem st.audits order e he)
  simp only [Bool.and_eq_true, decide_eq_true_eq]
  tauto

/-- C6 witness: a store holding one payment and one audit entry, queried
for a different, non-existent payment id. -/
theorem auditHistory_empty_for_unknown_witness :
    appGetPaymentAuditHistory
      { payments := [("p1", samplePayment .pending)],
        audits := [("a1", statusChangeEntry "a1" "p1" "u" "pending" "processing"
          .processed 3)] }
      "does-not-exist" [0] = .ok [] := by
  exact auditHistory_empty_for_unknown
    { payments := [("p1", samplePayment .pending)],
      audits := [("a1", statusChangeEntry "a1" "p1" "u" "pending" "processing"
        .processed 3)] }
    "does-not-exist" [0] (by decide)

theorem appCreate_ok (st : AppState) (v : Rat) (c desc userID : String)
    (pid : PaymentID) (nowP : Nat) (aid : String) (nowA : Nat)
    (hv : 0 ≤ v) (hc : c ≠ "") (haid : aid ∉ keysA st.audits) :
    appCreatePayment memAuditSave st v c desc userID pid nowP aid nowA =
      ({ payments := insertA st.payments pid.toStr
            (newPayment pid { value := v, currency := c } desc nowP),
         audits := st.audits ++
           [(aid, createdEntry aid pid v c desc userID nowP nowA)] },
       .ok (newPayment pid { value := v, currency := c } desc nowP)) := by
  have h1 : newAmount v c = .ok { value := v, currency := c } := by
    simp [newAmount, not_lt.mpr hv, hc]
  have h2 : recordPaymentCreated memAuditSave st.audits pid.toStr userID
      [("id", .s pid.toStr), ("amount", .n v), ("currency", .s c),
       ("description", .s desc), ("status", .s "pending"),
       ("created_at", .t nowP)] aid nowA =
      .ok (st.audits ++ [(aid, createdEntry aid pid v c desc userID nowP nowA)]) := by
    simp only [recordPaymentCreated, recordAction, memAuditSave, newAuditEntry]
    rw [insertA_fresh st.audits aid _ haid]
    rfl
  simp only [appCreatePayment, h1, repoSave]
  rw [show (newPayment pid { value := v, currency := c } desc nowP).id.toStr
      = pid.toStr from rfl]
  simp only [newPayment, PaymentStatus.toStr]
  exact congrArg (fun r =>
    match r with
    | .error e =>
        (({ payments := insertA st.payments pid.toStr
              (newPayment pid { value := v, currency := c } desc nowP),
            audits := st.audits } : AppState),
         (.error ("failed to record audit: " ++ e) : Except String Payment))
    | .ok as' =>
        (({ payments := insertA st.payments pid.toStr
              (newPayment pid { value := v, currency := c } desc nowP),
            audits := as' } : AppState),
         .ok (newPayment pid { value := v, currency := c } desc nowP))) h2

theorem repoFindByID_of_lookup (st : AppState) (pid : String) (p : Payment)
    (hp : lookupA st.payments pid = some p) :
    repoFindByID st.payments (paymentIDFromString pid) = .ok p := by
  simp [repoFindByID, paymentIDFromString, PaymentID.toStr, hp]

theorem appProcess_ok (st : AppState) (pid userID : String) (p : Payment)
    (nowT : Nat) (aid : String) (nowA : Nat)
    (hp : lookupA st.payments pid = some p) (hid : p.id.toStr = pid)
    (hst : p.status = .pending) (haid : aid ∉ keysA st.audits) :
    appProcessPayment memAuditSave st pid userID nowT aid nowA =
      ({ payments := insertA st.payments pid
            { p with status := .processing, updatedAt := nowT },
         audits := st.audits ++ [(aid, statusChangeEntry aid pid userID
            "pending" "processing" .processed nowA)] },
       .ok ()) := by
  have hfind := repoFindByID_of_lookup st pid p hp
  have hproc : p.process nowT =
      ({ p with status := .processing, updatedAt := nowT }, none) := by
    simp [Payment.process, hst]
  have hupd : repoUpdate st.payments
      { p with status := .processing, updatedAt := nowT } =
      .ok (insertA st.payments pid
        { p with status := .processing, updatedAt := nowT }) := by
    have hkey : ({ p with status := PaymentStatus.processing, updatedAt := nowT } : Payment).id.toStr = pid := hid
    simp only [repoUpdate]
    rw [hkey, hp]
  have hold : p.status.toStr = "pending" := by rw [hst]; rfl
  have hmap : recordPaymentStatusChange memAuditSave st.audits pid userID
      "pending" "processing" aid nowA =
      .ok (st.audits ++ [(aid, statusChangeEntry aid pid userID
        "pending" "processing" .processed nowA)]) := by
    rw [recordPaymentStatusChange_eq]
    show Except.ok (insertA st.audits aid _) = _
    rw [insertA_fresh st.audits aid _ haid]
  simp only [appProcessPayment, svcProcessPayment, hfind, hproc, hupd, hold, hmap]

theorem appProcess_guardfail (st : AppState) (pid userID : String)
    (p : Payment) (nowT : Nat) (aid : String) (nowA : Nat) (asave : AuditSave)
    (hp : lookupA st.payments pid = some p) (hst : p.status ≠ .pending) :
    appProcessPayment asave st pid userID nowT aid nowA =
      (st, .error "failed to process payment: payment can only be processed from pending status") := by
  have hfind := repoFindByID_of_lookup st pid p hp
  have hproc : p.process nowT =
      (p, some "payment can only be processed from pending status") := by
    simp [Payment.process, hst]
  simp only [appProcessPayment, svcProcessPayment, hfind, hproc]
  rfl

theorem appProcess_auditfail (st : AppState) (pid userID : String)
    (p : Payment) (nowT : Nat) (aid : String) (nowA : Nat)
    (asave : AuditSave) (msg : String)
    (hp : lookupA st.payments pid = some p) (hid : p.id.toStr = pid)
    (hst : p.status = .pending)
    (hsave : asave st.audits (statusChangeEntry aid pid userID
      "pending" "processing" .processed nowA) = .error msg) :
    appProcessPayment asave st pid userID nowT aid nowA =
      ({ payments := insertA st.payments pid
            { p with status := .processing, updatedAt := nowT },
         audits := st.audits },
       .error ("failed to record audit: " ++ msg)) := by
  have hfind := repoFindByID_of_lookup st pid p hp
  have hproc : p.process nowT =
      ({ p with status := .processing, updatedAt := nowT }, none) := by
    simp [Payment.process, hst]
  have hupd : repoUpdate st.payments
      { p with status := .processing, updatedAt := nowT } =
      .ok (insertA st.payments pid
        { p with status := .processing, updatedAt := nowT }) := by
    have hkey : ({ p with status := PaymentStatus.processing, updatedAt := nowT } : Payment).id.toStr = pid := hid
    simp only [repoUpdate]
    rw [hkey, hp]
  have hold : p.status.toStr = "pending" := by rw [hst]; rfl
  have hmap : recordPaymentStatusChange asave st.audits pid userID
      "pending" "processing" aid nowA = .error msg := by
    rw [recordPaymentStatusChange_eq]
    exact hsave
  simp only [appProcessPayment, svcProcessPayment, hfind, hproc, hupd, hold, hmap]

theorem appComplete_ok (st : AppState) (pid userID : String) (p : Payment)
    (nowT : Nat) (aid : String) (nowA : Nat)
    (hp : lookupA st.payments pid = some p) (hid : p.id.toStr = pid)
    (hst : p.status = .processing) (haid : aid ∉ keysA st.audits) :
    appCompletePayment memAuditSave st pid userID nowT aid nowA =
      ({ payments := insertA st.payments pid
            { p with status := .completed, updatedAt := nowT },
         audits := st.audits ++ [(aid, statusChangeEntry aid pid userID
            "processing" "completed" .completed nowA)] },
       .ok ()) := by
  have hfind := repoFindByID_of_lookup st pid p hp
  have hcomp : p.complete nowT =
      ({ p with status := .completed, updatedAt := nowT }, none) := by
    simp [Payment.complete, hst]
  have hupd : repoUpdate st.payments
      { p with status := .completed, updatedAt := nowT } =
      .ok (insertA st.payments pid
        { p with status := .completed, updatedAt := nowT }) := by
    have hkey : ({ p with status := PaymentStatus.completed, updatedAt := nowT } : Payment).id.toStr = pid := hid
    simp only [repoUpdate]
    rw [hkey, hp]
  have hold : p.status.toStr = "processing" := by rw [hst]; rfl
  have hmap : recordPaymentStatusChange memAuditSave st.audits pid userID
      "processing" "completed" aid nowA =
      .ok (st.audits ++ [(aid, statusChangeEntry aid pid userID
        "processing" "completed" .completed nowA)]) := by
    rw [recordPaymentStatusChange_eq]
    show Except.ok (insertA st.audits aid _) = _
    rw [insertA_fresh st.audits aid _ haid]
  simp only [appCompletePayment, svcCompletePayment, hfind, hcomp, hupd, hold, hmap]

theorem appComplete_guardfail (st : AppState) (pid userID : String)
    (p : Payment) (nowT : Nat) (aid : String) (nowA : Nat) (asave : AuditSave)
    (hp : lookupA st.payments pid = some p) (hst : p.status ≠ .processing) :
    appCompletePayment asave st pid userID nowT aid nowA =
      (st, .error "failed to complete payment: payment can only be completed from processing status") := by
  have hfind := repoFindByID_of_lookup st pid p hp
  have hcomp : p.complete nowT =
      (p, some "payment can only be completed from processing status") := by
    simp [Payment.complete, hst]
  simp only [appCompletePayment, svcCompletePayment, hfind, hcomp]
  rfl

theorem appComplete_auditfail (st : AppState) (pid userID : String)
    (p : Payment) (nowT : Nat) (aid : String) (nowA : Nat)
    (asave : AuditSave) (msg : String)
    (hp : lookupA st.payments pid = some p) (hid : p.id.toStr = pid)
    (hst : p.status = .processing)
    (hsave : asave st.audits (statusChangeEntry aid pid userID
      "processing" "completed" .completed nowA) = .error msg) :
    appCompletePayment asave st pid userID nowT aid nowA =
      ({ payments := insertA st.payments pid
            { p with status := .completed, updatedAt := nowT },
         audits := st.audits },
       .error ("failed to record audit: " ++ msg)) := by
  have hfind := repoFindByID_of_lookup st pid p hp
  have hcomp : p.complete nowT =
      ({ p with status := .completed, updatedAt := nowT }, none) := by
    simp [Payment.complete, hst]
  have hupd : repoUpdate st.payments
      { p with status := .completed, updatedAt := nowT } =
      .ok (insertA st.payments pid
        { p with status := .completed, updatedAt := nowT }) := by
    have hkey : ({ p with status := PaymentStatus.completed, updatedAt := nowT } : Payment).id.toStr = pid := hid
    simp only [repoUpdate]
    rw [hkey, hp]
  have hold : p.status.toStr = "processing" := by rw [hst]; rfl
  have hmap : recordPaymentStatusChange asave st.audits pid userID
      "processing" "completed" aid nowA = .error msg := by
    rw [recordPaymentStatusChange_eq]
    exact hsave
  simp only [appCompletePayment, svcCompletePayment, hfind, hcomp, hupd, hold, hmap]

/-- C1: for every payment in the store (addressed by its id) and every
user id: (A) a successful ProcessPayment with the in-memory audit store
appends exactly one audit entry — action `processed`, entityID the
payment's id, oldData/newData the one-key `{status: ...}` snapshots of
the prior and new status — and persists the `processing` status;
(B) if the Process transition succeeded but the audit repository's save
fails, the returned error wraps the audit failure while the `processing`
status remains persisted and the audit store is unchanged (no rollback);
(C) and (D) state the same for CompletePayment with action `completed`. -/
theorem process_complete_audit_coupling :
    (∀ (st : AppState) (pid userID : String) (p : Payment) (nowT : Nat)
       (aid : String) (nowA : Nat) (st' : AppState),
      lookupA st.payments pid = some p → p.id.toStr = pid →
      aid ∉ keysA st.audits →
      appProcessPayment memAuditSave st pid userID nowT aid nowA = (st', .ok ()) →
      st'.audits = st.audits ++ [(aid, statusChangeEntry aid pid userID
        p.status.toStr "processing" .processed nowA)] ∧
      lookupA st'.payments pid =
        some { p with status := .processing, updatedAt := nowT }) ∧
    (∀ (st : AppState) (pid userID : String) (p : Payment) (nowT : Nat)
       (aid : String) (nowA : Nat) (asave : AuditSave) (msg : String),
      lookupA st.payments pid = some p → p.id.toStr = pid →
      p.status = .pending →
      asave st.audits (statusChangeEntry aid pid userID
        "pending" "processing" .processed nowA) = .error msg →
      (appProcessPayment asave st pid userID nowT aid nowA).2 =
        .error ("failed to record audit: " ++ msg) ∧
      lookupA (appProcessPayment asave st pid userID nowT aid nowA).1.payments pid =
        some { p with status := .processing, updatedAt := nowT } ∧
      (appProcessPayment asave st pid userID nowT aid nowA).1.audits = st.audits) ∧
    (∀ (st : AppState) (pid userID : String) (p : Payment) (nowT : Nat)
       (aid : String) (nowA : Nat) (st' : AppState),
      lookupA st.payments pid = some p → p.id.toStr = pid →
      aid ∉ keysA st.audits →
      appCompletePayment memAuditSave st pid userID nowT aid nowA = (st', .ok ()) →
      st'.audits = st.audits ++ [(aid, statusChangeEntry aid pid userID
        p.status.toStr "completed" .completed nowA)] ∧
      lookupA st'.payments pid =
        some { p with status := .completed, updatedAt := nowT }) ∧
    (∀ (st : AppState) (pid userID : String) (p : Payment) (nowT : Nat)
       (aid : String) (nowA : Nat) (asave : AuditSave) (msg : String),
      lookupA st.payments pid = some p → p.id.toStr = pid →
      p.status = .processing →
      asave st.audits (statusChangeEntry aid pid userID
        "processing" "completed" .completed nowA) = .error msg →
      (appCompletePayment asave st pid userID nowT aid nowA).2 =
        .error ("failed to record audit: " ++ msg) ∧
      lookupA (appCompletePayment asave st pid userID nowT aid nowA).1.payments pid =
        some { p with status := .completed, updatedAt := nowT } ∧
      (appCompletePayment asave st pid userID nowT aid nowA).1.audits = st.audits) := by
  refine ⟨?_, ?_, ?_, ?_⟩
  · intro st pid userID p nowT aid nowA st' hp hid haid hcall
    by_cases hst : p.status = .pending
    · rw [appProcess_ok st pid userID p nowT aid nowA hp hid hst haid] at hcall
      have h1 := (Prod.ext_iff.mp hcall).1
      subst h1
      constructor
      · rw [hst]; rfl
      · exact lookupA_insertA_self st.payments pid _
    · rw [appProcess_guardfail st pid userID p nowT aid nowA memAuditSave hp hst]
        at hcall
      exact absurd (Prod.ext_iff.mp hcall).2 (by simp)
  · intro st pid userID p nowT aid nowA asave msg hp hid hst hsave
    rw [appProcess_auditfail st pid userID p nowT aid nowA asave msg
      hp hid hst hsave]
    exact ⟨rfl, lookupA_insertA_self st.payments pid _, rfl⟩
  · intro st pid userID p nowT aid nowA st' hp hid haid hcall
    by_cases hst : p.status = .processing
    · rw [appComplete_ok st pid userID p nowT aid nowA hp hid hst haid] at hcall
      have h1 := (Prod.ext_iff.mp hcall).1
      subst h1
      constructor
      · rw [hst]; rfl
      · exact lookupA_insertA_self st.payments pid _
    · rw [appComplete_guardfail st pid userID p nowT aid nowA memAuditSave hp hst]
        at hcall
      exact absurd (Prod.ext_iff.mp hcall).2 (by simp)
  · intro st pid userID p nowT aid nowA asave msg hp hid hst hsave
    rw [appComplete_auditfail st pid userID p nowT aid nowA asave msg
      hp hid hst hsave]
    exact ⟨rfl, lookupA_insertA_self st.payments pid _, rfl⟩

/-- C1 witness: all four parts evaluated at concrete one-payment states,
with an always-failing audit save for the failure parts. -/
theorem process_complete_audit_coupling_witness :
    (c1StA'.audits = c1StA.audits ++ [("a1", statusChangeEntry "a1" "p1" "u"
        "pending" "processing" .processed 2)] ∧
      lookupA c1StA'.payments "p1" = some { samplePayment .pending with
        status := .processing, updatedAt := 1 }) ∧
    ((appProcessPayment (fun _ _ => .error "boom") c1StA "p1" "u" 1 "a1" 2).2 =
      .error ("failed to record audit: " ++ "boom")) ∧
    (c1StC'.audits = c1StC.audits ++ [("a1", statusChangeEntry "a1" "p1" "u"
        "processing" "completed" .completed 2)] ∧
      lookupA c1StC'.payments "p1" = some { samplePayment .processing with
        status := .completed, updatedAt := 1 }) ∧
    ((appCompletePayment (fun _ _ => .error "boom") c1StC "p1" "u" 1 "a1" 2).2 =
      .error ("failed to record audit: " ++ "boom")) := by
  refine ⟨?_, ?_, ?_, ?_⟩
  · exact process_complete_audit_coupling.1 c1StA "p1" "u"
      (samplePayment .pending) 1 "a1" 2 c1StA' rfl rfl (by decide) (by rfl)
  · exact (process_complete_audit_coupling.2.1 c1StA "p1" "u"
      (samplePayment .pending) 1 "a1" 2 (fun _ _ => .error "boom") "boom"
      rfl rfl rfl rfl).1
  · exact process_complete_audit_coupling.2.2.1 c1StC "p1" "u"
      (samplePayment .processing) 1 "a1" 2 c1StC' rfl rfl (by decide) (by rfl)
  · exact (process_complete_audit_coupling.2.2.2 c1StC "p1" "u"
      (samplePayment .processing) 1 "a1" 2 (fun _ _ => .error "boom") "boom"
      rfl rfl rfl rfl).1

/-- C4: CreatePayment rejects a negative amount or empty currency with a
validation error before any store is touched (the returned state is the
input state, for every audit repository — no save is invoked); on valid
input it persists exactly one new pending payment and exactly one
`created` audit entry carrying the caller's userID whose newData
snapshot holds id, amount, currency, description, status "pending" and
the creation timestamp. -/
theorem createPayment_validation_and_audit (st : AppState) (v : Rat)
    (c desc userID : String) (pid : PaymentID) (nowP : Nat) (aid : String)
    (nowA : Nat) :
    (v < 0 → ∀ asave : AuditSave,
      appCreatePayment asave st v c desc userID pid nowP aid nowA =
        (st, .error "invalid amount: amount cannot be negative")) ∧
    (0 ≤ v → c = "" → ∀ asave : AuditSave,
      appCreatePayment asave st v c desc userID pid nowP aid nowA =
        (st, .error "invalid amount: currency cannot be empty")) ∧
    (0 ≤ v → c ≠ "" → pid.toStr ∉ keysA st.payments →
      aid ∉ keysA st.audits →
      appCreatePayment memAuditSave st v c desc userID pid nowP aid nowA =
        ({ payments := st.payments ++
            [(pid.toStr, newPayment pid { value := v, currency := c } desc nowP)],
           audits := st.audits ++
            [(aid, createdEntry aid pid v c desc userID nowP nowA)] },
         .ok (newPayment pid { value := v, currency := c } desc nowP))) := by
  refine ⟨?_, ?_, ?_⟩
  · intro hv asave
    simp only [appCreatePayment, newAmount, if_pos hv]
    rfl
  · intro hv hc asave
    simp only [appCreatePayment, newAmount, if_neg (not_lt.mpr hv), if_pos hc]
    rfl
  · intro hv hc hpid haid
    rw [appCreate_ok st v c desc userID pid nowP aid nowA hv hc haid,
      insertA_fresh st.payments pid.toStr _ hpid]

/-- C4 witness: the spec's own example inputs on an empty system, and
both invalid inputs. -/
theorem createPayment_validation_and_audit_witness :
    (∀ asave : AuditSave,
      appCreatePayment asave { payments := [], audits := [] } (-21 / 2 : Rat)
        "USD" "Online purchase" "user-123" { value := "p1" } 0 "a1" 1 =
      ({ payments := [], audits := [] },
       .error "invalid amount: amount cannot be negative")) ∧
    (∀ asave : AuditSave,
      appCreatePayment asave { payments := [], audits := [] } (201 / 2 : Rat)
        "" "Online purchase" "user-123" { value := "p1" } 0 "a1" 1 =
      ({ payments := [], audits := [] },
       .error "invalid amount: currency cannot be empty")) ∧
    appCreatePayment memAuditSave { payments := [], audits := [] }
        (201 / 2 : Rat) "USD" "Online purchase" "user-123"
        { value := "p1" } 0 "a1" 1 =
      ({ payments := [("p1", newPayment { value := "p1" }
          { value := (201 / 2 : Rat), currency := "USD" } "Online purchase" 0)],
         audits := [("a1", createdEntry "a1" { value := "p1" } (201 / 2 : Rat)
          "USD" "Online purchase" "user-123" 0 1)] },
       .ok (newPayment { value := "p1" }
        { value := (201 / 2 : Rat), currency := "USD" } "Online purchase" 0)) := by
  refine ⟨?_, ?_, ?_⟩
  · exact fun asave =>
      (createPayment_validation_and_audit { payments := [], audits := [] }
        (-21 / 2 : Rat) "USD" "Online purchase" "user-123" { value := "p1" }
        0 "a1" 1).1 (by norm_num) asave
  · exact fun asave =>
      (createPayment_validation_and_audit { payments := [], audits := [] }
        (201 / 2 : Rat) "" "Online purchase" "user-123" { value := "p1" }
        0 "a1" 1).2.1 (by norm_num) rfl asave
  · exact (createPayment_validation_and_audit { payments := [], audits := [] }
      (201 / 2 : Rat) "USD" "Online purchase" "user-123" { value := "p1" }
      0 "a1" 1).2.2 (by norm_num) (by decide) (by decide) (by decide)

theorem keysA_append {α : Type} (l l' : List (String × α)) :
    keysA (l ++ l') = keysA l ++ keysA l' := by
  simp [keysA]

theorem scenarioFinal_eq (st : AppState) (v : Rat) (c desc userID : String)
    (pid : PaymentID) (aid1 aid2 aid3 : String) (n1 n2 n3 n4 n5 n6 : Nat)
    (hv : 0 ≤ v) (hc : c ≠ "")
    (h1 : aid1 ∉ keysA st.audits) (h2 : aid2 ∉ keysA st.audits)
    (h3 : aid3 ∉ keysA st.audits)
    (h21 : aid2 ≠ aid1) (h31 : aid3 ≠ aid1) (h32 : aid3 ≠ aid2) :
    scenarioFinal st v c desc userID pid aid1 aid2 aid3 n1 n2 n3 n4 n5 n6 =
      { payments := insertA (insertA (insertA st.payments pid.toStr
          (newPayment pid { value := v, currency := c } desc n1)) pid.toStr
          { id := pid, amount := { value := v, currency := c },
            status := .processing, description := desc,
            createdAt := n1, updatedAt := n3 }) pid.toStr
          { id := pid, amount := { value := v, currency := c },
            status := .completed, description := desc,
            createdAt := n1, updatedAt := n5 },
        audits := st.audits ++
          [(aid1, createdEntry aid1 pid v c desc userID n1 n2),
           (aid2, statusChangeEntry aid2 pid.toStr userID
             "pending" "processing" .processed n4),
           (aid3, statusChangeEntry aid3 pid.toStr userID
             "processing" "completed" .completed n6)] } := by
  have haid2 : aid2 ∉ keysA (st.audits ++
      [(aid1, createdEntry aid1 pid v c desc userID n1 n2)]) := by
    rw [keysA_append]
    intro hmem
    rcases List.mem_append.mp hmem with hA | hB
    · exact h2 hA
    · simp [keysA] at hB
      exact h21 hB
  have haid3 : aid3 ∉ keysA ((st.audits ++
      [(aid1, createdEntry aid1 pid v c desc userID n1 n2)]) ++
      [(aid2, statusChangeEntry aid2 pid.toStr userID
        "pending" "processing" .processed n4)]) := by
    rw [keysA_append, keysA_append]
    intro hmem
    rcases List.mem_append.mp hmem with hA | hB
    · rcases List.mem_append.mp hA with hC | hD
      · exact h3 hC
      · simp [keysA] at hD
        exact h31 hD
    · simp [keysA] at hB
      exact h32 hB
  have hs1 : (appCreatePayment memAuditSave st v c desc userID pid n1 aid1
      n2).1 =
      ({ payments := insertA st.payments pid.toStr
          (newPayment pid { value := v, currency := c } desc n1),
         audits := st.audits ++
          [(aid1, createdEntry aid1 pid v c desc userID n1 n2)] } : AppState) := by
    rw [appCreate_ok st v c desc userID pid n1 aid1 n2 hv hc h1]
  have hs2 : (appProcessPayment memAuditSave
      ({ payments := insertA st.payments pid.toStr
          (newPayment pid { value := v, currency := c } desc n1),
         audits := st.audits ++
          [(aid1, createdEntry aid1 pid v c desc userID n1 n2)] } : AppState)
      pid.toStr userID n3 aid2 n4).1 =
      ({ payments := insertA (insertA st.payments pid.toStr
          (newPayment pid { value := v, currency := c } desc n1)) pid.toStr
          { id := pid, amount := { value := v, currency := c },
            status := .processing, description := desc,
            createdAt := n1, updatedAt := n3 },
         audits := (st.audits ++
          [(aid1, createdEntry aid1 pid v c desc userID n1 n2)]) ++
          [(aid2, statusChangeEntry aid2 pid.toStr userID
            "pending" "processing" .processed n4)] } : AppState) := by
    rw [appProcess_ok _ pid.toStr userID
      (newPayment pid { value := v, currency := c } desc n1) n3 aid2 n4
      (lookupA_insertA_self st.payments pid.toStr _) rfl rfl haid2]
    rfl
  have hs3 : (appCompletePayment memAuditSave
      ({ payments := insertA (insertA st.payments pid.toStr
          (newPayment pid { value := v, currency := c } desc n1)) pid.toStr
          { id := pid, amount := { value := v, currency := c },
            status := .processing, description := desc,
            createdAt := n1, updatedAt := n3 },
         audits := (st.audits ++
          [(aid1, createdEntry aid1 pid v c desc userID n1 n2)]) ++
          [(aid2, statusChangeEntry aid2 pid.toStr userID
            "pending" "processing" .processed n4)] } : AppState)
      pid.toStr userID n5 aid3 n6).1 =
      ({ payments := insertA (insertA (insertA st.payments pid.toStr
          (newPayment pid { value := v, currency := c } desc n1)) pid.toStr
          { id := pid, amount := { value := v, currency := c },
            status := .processing, description := desc,
            createdAt := n1, updatedAt := n3 }) pid.toStr
          { id := pid, amount := { value := v, currency := c },
            status := .completed, description := desc,
            createdAt := n1, updatedAt := n5 },
         audits := ((st.audits ++
          [(aid1, createdEntry aid1 pid v c desc userID n1 n2)]) ++
          [(aid2, statusChangeEntry aid2 pid.toStr userID
            "pending" "processing" .processed n4)]) ++
          [(aid3, statusChangeEntry aid3 pid.toStr userID
            "processing" "completed" .completed n6)] } : AppState) := by
    rw [appComplete_ok _ pid.toStr userID
      { id := pid, amount := { value := v, currency := c },
        status := .processing, description := desc,
        createdAt := n1, updatedAt := n3 } n5 aid3 n6
      (lookupA_insertA_self _ pid.toStr _) rfl rfl haid3]
  simp only [scenarioFinal]
  rw [hs1, hs2, hs3]
  simp

/-- C7 (amended): creating a payment through the application service and
then successfully processing and completing it yields an audit history of
exactly three entries — `created`, `processed` (oldData.status "pending",
newData.status "processing"), `completed` (oldData.status "processing",
newData.status "completed") — under every map-iteration order; the
collection is a permutation of those three entries, in whatever order the
store's unspecified map iteration visits them, not necessarily creation
order (see the counterexample). -/
theorem audit_history_creation_scenario
    (st : AppState) (v : Rat) (c desc userID : String) (pid : PaymentID)
    (aid1 aid2 aid3 : String) (n1 n2 n3 n4 n5 n6 : Nat) (order : List Nat)
    (hv : 0 ≤ v) (hc : c ≠ "")
    (h1 : aid1 ∉ keysA st.audits) (h2 : aid2 ∉ keysA st.audits)
    (h3 : aid3 ∉ keysA st.audits)
    (h21 : aid2 ≠ aid1) (h31 : aid3 ≠ aid1) (h32 : aid3 ≠ aid2)
    (hprior : ∀ e ∈ valsA st.audits,
      ¬(e.entityType = entityTypePayment ∧ e.entityID = pid.toStr))
    (hvalid : ValidIter (scenarioFinal st v c desc userID pid aid1 aid2 aid3
      n1 n2 n3 n4 n5 n6).audits order) :
    (appCreatePayment memAuditSave st v c desc userID pid n1 aid1 n2).2 =
      .ok (newPayment pid { value := v, currency := c } desc n1) ∧
    (appProcessPayment memAuditSave
      (appCreatePayment memAuditSave st v c desc userID pid n1 aid1 n2).1
      pid.toStr userID n3 aid2 n4).2 = .ok () ∧
    (appCompletePayment memAuditSave
      (appProcessPayment memAuditSave
        (appCreatePayment memAuditSave st v c desc userID pid n1 aid1 n2).1
        pid.toStr userID n3 aid2 n4).1
      pid.toStr userID n5 aid3 n6).2 = .ok () ∧
    (findByEntityIDWith (scenarioFinal st v c desc userID pid aid1 aid2 aid3
        n1 n2 n3 n4 n5 n6).audits order entityTypePayment pid.toStr).Perm
      [createdEntry aid1 pid v c desc userID n1 n2,
       statusChangeEntry aid2 pid.toStr userID "pending" "processing"
         .processed n4,
       statusChangeEntry aid3 pid.toStr userID "processing" "completed"
         .completed n6] ∧
    (findByEntityIDWith (scenarioFinal st v c desc userID pid aid1 aid2 aid3
        n1 n2 n3 n4 n5 n6).audits order entityTypePayment pid.toStr).length
      = 3 := by
  have haid2 : aid2 ∉ keysA (st.audits ++
      [(aid1, createdEntry aid1 pid v c desc userID n1 n2)]) := by
    rw [keysA_append]
    intro hmem
    rcases List.mem_append.mp hmem with hA | hB
    · exact h2 hA
    · simp [keysA] at hB
      exact h21 hB
  have haid3 : aid3 ∉ keysA ((st.audits ++
      [(aid1, createdEntry aid1 pid v c desc userID n1 n2)]) ++
      [(aid2, statusChangeEntry aid2 pid.toStr userID
        "pending" "processing" .processed n4)]) := by
    rw [keysA_append, keysA_append]
    intro hmem
    rcases List.mem_append.mp hmem with hA | hB
    · rcases List.mem_append.mp hA with hC | hD
      · exact h3 hC
      · simp [keysA] at hD
        exact h31 hD
    · simp [keysA] at hB
      exact h32 hB
  refine ⟨?_, ?_, ?_, ?_, ?_⟩
  · rw [appCreate_ok st v c desc userID pid n1 aid1 n2 hv hc h1]
  · rw [appCreate_ok st v c desc userID pid n1 aid1 n2 hv hc h1]
    rw [appProcess_ok _ pid.toStr userID
      (newPayment pid { value := v, currency := c } desc n1) n3 aid2 n4
      (lookupA_insertA_self st.payments pid.toStr _) rfl rfl haid2]
  · rw [appCreate_ok st v c desc userID pid n1 aid1 n2 hv hc h1]
    rw [appProcess_ok _ pid.toStr userID
      (newPayment pid { value := v, currency := c } desc n1) n3 aid2 n4
      (lookupA_insertA_self st.payments pid.toStr _) rfl rfl haid2]
    rw [appComplete_ok _ pid.toStr userID
      { id := pid, amount := { value := v, currency := c },
        status := .processing, description := desc,
        createdAt := n1, updatedAt := n3 } n5 aid3 n6
      (lookupA_insertA_self _ pid.toStr _) rfl rfl haid3]
  · rw [scenarioFinal_eq st v c desc userID pid aid1 aid2 aid3 n1 n2 n3 n4 n5
      n6 hv hc h1 h2 h3 h21 h31 h32] at hvalid ⊢
    have hperm := (iterVals_perm _ order hvalid).filter
      (fun e => decide (e.entityType = entityTypePayment) &&
        decide (e.entityID = pid.toStr))
    unfold findByEntityIDWith
    rw [valsA_append, List.filter_append] at hperm
    have hnil : (valsA st.audits).filter
        (fun e => decide (e.entityType = entityTypePayment) &&
          decide (e.entityID = pid.toStr)) = [] := by
      rw [List.filter_eq_nil]
      intro e he
      have h4 := hprior e he
      simp only [Bool.and_eq_true, decide_eq_true_eq]
      tauto
    rw [hnil] at hperm
    have hself : (valsA [(aid1, createdEntry aid1 pid v c desc userID n1 n2),
        (aid2, statusChangeEntry aid2 pid.toStr userID "pending" "processing"
          .processed n4),
        (aid3, statusChangeEntry aid3 pid.toStr userID "processing" "completed"
          .completed n6)]).filter
        (fun e => decide (e.entityType = entityTypePayment) &&
          decide (e.entityID = pid.toStr)) =
        [createdEntry aid1 pid v c desc userID n1 n2,
         statusChangeEntry aid2 pid.toStr userID "pending" "processing"
           .processed n4,
         statusChangeEntry aid3 pid.toStr userID "processing" "completed"
           .completed n6] := by
      simp [valsA, List.filter, createdEntry, statusChangeEntry]
    rw [hself] at hperm
    simpa using hperm
  · rw [scenarioFinal_eq st v c desc userID pid aid1 aid2 aid3 n1 n2 n3 n4 n5
      n6 hv hc h1 h2 h3 h21 h31 h32] at hvalid ⊢
    have hperm := (iterVals_perm _ order hvalid).filter
      (fun e => decide (e.entityType = entityTypePayment) &&
        decide (e.entityID = pid.toStr))
    unfold findByEntityIDWith
    rw [valsA_append, List.filter_append] at hperm
    have hnil : (valsA st.audits).filter
        (fun e => decide (e.entityType = entityTypePayment) &&
          decide (e.entityID = pid.toStr)) = [] := by
      rw [List.filter_eq_nil]
      intro e he
      have h4 := hprior e he
      simp only [Bool.and_eq_true, decide_eq_true_eq]
      tauto
    rw [hnil] at hperm
    have hlen := hperm.length_eq
    simpa [valsA, List.filter, createdEntry, statusChangeEntry] using hlen

/-- C7 counterexample: `[1, 0, 2]` is a legitimate iteration order of the
three-entry audit map (Go map iteration order is unspecified), and under
it `GetPaymentAuditHistory` returns the entries as processed, created,
completed — not in creation order as the claim states. -/
theorem audit_history_order_counterexample :
    ValidIter c7Sample.audits [1, 0, 2] ∧
    (findByEntityIDWith c7Sample.audits [1, 0, 2] entityTypePayment "p1").map
      AuditEntry.action = [.processed, .created, .completed] ∧
    (findByEntityIDWith c7Sample.audits [1, 0, 2] entityTypePayment "p1").map
      AuditEntry.action ≠ [.created, .processed, .completed] := by
  refine ⟨?_, ?_, ?_⟩
  · unfold ValidIter
    decide
  · decide
  · decide

/-- C7 witness: the scenario evaluated on empty stores with the
insertion-order iteration `[0, 1, 2]`. -/
theorem audit_history_creation_scenario_witness :
    (findByEntityIDWith c7Sample.audits [0, 1, 2] entityTypePayment "p1").Perm
      [createdEntry "a1" { value := "p1" } 5 "USD" "d" "u" 0 1,
       statusChangeEntry "a2" "p1" "u" "pending" "processing" .processed 3,
       statusChangeEntry "a3" "p1" "u" "processing" "completed" .completed 5] ∧
    (findByEntityIDWith c7Sample.audits [0, 1, 2] entityTypePayment
      "p1").length = 3 := by
  have h := audit_history_creation_scenario { payments := [], audits := [] }
    5 "USD" "d" "u" { value := "p1" } "a1" "a2" "a3" 0 1 2 3 4 5 [0, 1, 2]
    (by decide) (by decide) (by decide) (by decide) (by decide) (by decide)
    (by decide) (by decide) (by decide) (by unfold ValidIter; decide)
  exact ⟨h.2.2.2.1, h.2.2.2.2⟩
